import Mathlib

/-!
Verification of the toska-mesh control plane against its specification.

Each component of the gateway / health-monitor / load-balancer code is
shallowly embedded as executable Lean definitions: Go machine integers
become `Nat`/`Int` with explicit wrap-around where overflow matters,
Go maps become association lists with map-style insertion, the pluggable
clock becomes an explicit `now : Int` argument, and fallible calls
return `Option`/`Except`.
-/

/-- Association-list lookup, modelling a read of a Go `map[string]V`. -/
def lookupA {α : Type} : List (String × α) → String → Option α
| [], _ => none
| (k, v) :: rest, key => if k = key then some v else lookupA rest key

/-- Association-list write, modelling assignment to a Go `map[string]V`:
the existing entry is replaced in place, otherwise a new entry is appended. -/
def setAssoc {α : Type} : List (String × α) → String → α → List (String × α)
| [], key, v => [(key, v)]
| (k, w) :: rest, key, v =>
  if k = key then (key, v) :: rest else (k, w) :: setAssoc rest key v

/-- Value of a run of decimal digit characters. -/
def digitsVal (l : List Char) : Nat :=
  l.foldl (fun acc c => acc * 10 + (c.toNat - '0'.toNat)) 0

namespace HealthMonitor

/-- `BreakerState` from internal/healthmonitor/breaker.go.
`opened` stands for the Go constant `BreakerOpen` (`open` is a Lean keyword). -/
inductive BreakerState where
| closed
| opened
| halfOpen
deriving DecidableEq

/-- `CircuitBreaker` from internal/healthmonitor/breaker.go.  The mutex is
dropped (operations are serialized) and the injected clock `now` becomes an
explicit argument of the operations; times are `Int` nanoseconds. -/
structure CircuitBreaker where
  state : BreakerState
  failureCount : Nat
  failureThreshold : Nat
  breakDuration : Int
  openedAt : Int
deriving DecidableEq

/-- `NewCircuitBreaker` from breaker.go: starts closed with zero counters. -/
def NewCircuitBreaker (failureThreshold : Nat) (breakDuration : Int) : CircuitBreaker :=
  { state := BreakerState.closed
    failureCount := 0
    failureThreshold := failureThreshold
    breakDuration := breakDuration
    openedAt := 0 }

/-- `CircuitBreaker.Allow` from breaker.go: closed admits, open admits once the
break duration has elapsed (moving to half-open), half-open admits. -/
def CircuitBreaker.Allow (cb : CircuitBreaker) (now : Int) : Bool × CircuitBreaker :=
  match cb.state with
  | BreakerState.closed => (true, cb)
  | BreakerState.opened =>
    if now - cb.openedAt ≥ cb.breakDuration then
      (true, { cb with state := BreakerState.halfOpen })
    else
      (false, cb)
  | BreakerState.halfOpen => (true, cb)

/-- `CircuitBreaker.RecordSuccess` from breaker.go: reset to closed. -/
def CircuitBreaker.RecordSuccess (cb : CircuitBreaker) : CircuitBreaker :=
  { cb with failureCount := 0, state := BreakerState.closed }

/-- `CircuitBreaker.RecordFailure` from breaker.go: increment the count and
open the circuit when half-open or when the threshold is reached. -/
def CircuitBreaker.RecordFailure (cb : CircuitBreaker) (now : Int) : CircuitBreaker :=
  let fc := cb.failureCount + 1
  if cb.state = BreakerState.halfOpen ∨ fc ≥ cb.failureThreshold then
    { cb with failureCount := fc, state := BreakerState.opened, openedAt := now }
  else
    { cb with failureCount := fc }

/-- One externally issued breaker operation, with the clock reading the Go
code would observe during that call. -/
inductive BreakerOp where
| allowStep (t : Int)
| failStep (t : Int)
| succStep
deriving DecidableEq

/-- Run a sequence of breaker operations (the boolean answers of `Allow` are
discarded; only the state evolution matters here). -/
def runOps : CircuitBreaker → List BreakerOp → CircuitBreaker
| cb, [] => cb
| cb, BreakerOp.allowStep t :: rest => runOps (cb.Allow t).2 rest
| cb, BreakerOp.failStep t :: rest => runOps (cb.RecordFailure t) rest
| cb, BreakerOp.succStep :: rest => runOps cb.RecordSuccess rest

def isFailStep : BreakerOp → Bool
| BreakerOp.failStep _ => true
| _ => false

/-- Number of `RecordFailure` calls in a sequence of operations. -/
def failCount (ops : List BreakerOp) : Nat := (ops.filter isFailStep).length

end HealthMonitor

namespace Gateway

/-- Buffered upstream response from internal/gateway/proxy.go
(`bufferedResponse`): status, cloned headers, body bytes. -/
structure BufferedResponse where
  statusCode : Nat
  header : List (String × List String)
  body : List Nat
deriving DecidableEq

/-- What one iteration of the attempt loop in `Proxy.ServeHTTP` observes:
the breaker refused admission, `forward` returned a transport error, or
`forward` returned a buffered response. -/
inductive AttemptOutcome where
| refused
| transportError
| response (br : BufferedResponse)
deriving DecidableEq

/-- What `Proxy.ServeHTTP` writes to the client once a backend was found:
a response flushed on success, the remembered last 5xx on exhaustion, or an
`http.Error` with the computed status. -/
inductive ServeResult where
| flushed (br : BufferedResponse)
| exhaustedLast (br : BufferedResponse)
| exhaustedError (status : Nat)
deriving DecidableEq

/-- The attempt loop of `Proxy.ServeHTTP` (proxy.go lines 83-141), with the
per-attempt outcomes supplied as a list: threading `lastStatus` (0 for the Go
zero value) and `lastResp` exactly as the Go code does, flushing early on a
sub-500 response, and on exhaustion writing `lastResp` if set, else an error
with `lastStatus` (502 when no status was recorded). -/
def serveAttempts : List AttemptOutcome → Nat → Option BufferedResponse → ServeResult
| [], lastStatus, lastResp =>
  match lastResp with
  | some br => ServeResult.exhaustedLast br
  | none => ServeResult.exhaustedError (if lastStatus = 0 then 502 else lastStatus)
| AttemptOutcome.refused :: rest, _, lastResp => serveAttempts rest 503 lastResp
| AttemptOutcome.transportError :: rest, lastStatus, lastResp =>
  serveAttempts rest lastStatus lastResp
| AttemptOutcome.response br :: rest, _, _ =>
  if br.statusCode < 500 then ServeResult.flushed br
  else serveAttempts rest br.statusCode (some br)

/-- `Proxy.ServeHTTP` after a successful route lookup: the loop runs at most
`retryCount + 1` iterations. -/
def ServeHTTPAttempts (retryCount : Nat) (outcomes : List AttemptOutcome) : ServeResult :=
  serveAttempts (outcomes.take (retryCount + 1)) 0 none

/-- Number of calls to `forward` the loop makes for the given outcomes:
a breaker refusal skips the forward, everything else performs one, and a
sub-500 response stops the loop. -/
def forwardsIn : List AttemptOutcome → Nat
| [] => 0
| AttemptOutcome.refused :: rest => forwardsIn rest
| AttemptOutcome.transportError :: rest => 1 + forwardsIn rest
| AttemptOutcome.response br :: rest =>
  if br.statusCode < 500 then 1 else 1 + forwardsIn rest

def isSuccessResp : AttemptOutcome → Bool
| AttemptOutcome.response br => br.statusCode < 500
| _ => false

def isRefusedOutcome : AttemptOutcome → Bool
| AttemptOutcome.refused => true
| _ => false

def isResponseOutcome : AttemptOutcome → Bool
| AttemptOutcome.response _ => true
| _ => false

/-- One step of the `lastResp` variable of the loop. -/
def updLastResp (acc : Option BufferedResponse) : AttemptOutcome → Option BufferedResponse
| AttemptOutcome.response br => some br
| _ => acc

/-- One step of the `lastStatus` variable of the loop. -/
def updLastStatus (acc : Nat) : AttemptOutcome → Nat
| AttemptOutcome.refused => 503
| AttemptOutcome.transportError => acc
| AttemptOutcome.response br => br.statusCode

/-- The `lastResp` variable after the loop has consumed these outcomes
without flushing: the last buffered response. -/
def lastBuffered (l : List AttemptOutcome) : Option BufferedResponse :=
  l.foldl updLastResp none

/-- The `lastStatus` variable after consuming these outcomes without
flushing, starting from `acc`. -/
def lastStatusAfter (acc : Nat) (l : List AttemptOutcome) : Nat :=
  l.foldl updLastStatus acc

/-- Health status as mapped by the consul adapter (internal/types/health.go):
Unknown is the zero value. -/
inductive HealthStatus where
| unknown
| healthy
| unhealthy
| degraded
deriving DecidableEq

/-- The slice of a catalog `ServiceInstance` that the route-table refresh
reads (internal/consul types): identifier, address, port, status, metadata. -/
structure ConsulInstance where
  ServiceID : String
  Address : String
  Port : Nat
  Status : HealthStatus
  Metadata : List (String × String)
deriving DecidableEq

/-- `Backend` from internal/gateway/routes.go. -/
structure Backend where
  ServiceID : String
  Address : String
deriving DecidableEq

/-- `ServiceRoute` from internal/gateway/routes.go. -/
structure ServiceRoute where
  ServiceName : String
  Backends : List Backend
deriving DecidableEq

/-- Scheme selection in `RouteTable.refresh`: metadata `scheme` when present
and non-empty, else `http`. -/
def schemeOf (inst : ConsulInstance) : String :=
  match lookupA inst.Metadata "scheme" with
  | some s => if s ≠ "" then s else "http"
  | none => "http"

/-- Backend address formatting in `RouteTable.refresh`:
`scheme://address:port`. -/
def backendAddress (inst : ConsulInstance) : String :=
  schemeOf inst ++ "://" ++ inst.Address ++ ":" ++ toString inst.Port

/-- The inner instance loop of `RouteTable.refresh`: keep only Healthy
instances, in order, as backends. -/
def backendsOf (insts : List ConsulInstance) : List Backend :=
  insts.filterMap (fun inst =>
    if inst.Status = HealthStatus.healthy then
      some { ServiceID := inst.ServiceID, Address := backendAddress inst }
    else none)

def toLowerChar (c : Char) : Char :=
  if 'A' ≤ c ∧ c ≤ 'Z' then Char.ofNat (c.toNat + 32) else c

/-- Models `strings.ToLower` on the ASCII service names used here. -/
def lowerStr (s : String) : String := ⟨s.data.map toLowerChar⟩

/-- Models `strings.EqualFold` on the ASCII service names used here. -/
def eqFold (a b : String) : Bool := lowerStr a = lowerStr b

/-- The service loop of `RouteTable.refresh` building `newRoutes`: skip the
catalog self-service, skip services whose instance fetch fails, skip services
with no healthy backend, and insert the rest keyed by lower-cased name. -/
def buildRoutes (gi : String → Except String (List ConsulInstance)) :
    List String → List (String × ServiceRoute) → List (String × ServiceRoute)
| [], acc => acc
| name :: rest, acc =>
  if eqFold name "consul" then buildRoutes gi rest acc
  else
    match gi name with
    | Except.error _ => buildRoutes gi rest acc
    | Except.ok insts =>
      if backendsOf insts = [] then buildRoutes gi rest acc
      else buildRoutes gi rest
        (setAssoc acc (lowerStr name)
          { ServiceName := name, Backends := backendsOf insts })

/-- `RouteTable.refresh` (routes.go lines 99-152) as a function of the
catalog answers: on a `GetServices` error the old map is kept; otherwise a
new map is built from scratch and swapped in. -/
def refresh (old : List (String × ServiceRoute))
    (services : Except String (List String))
    (gi : String → Except String (List ConsulInstance)) :
    List (String × ServiceRoute) :=
  match services with
  | Except.error _ => old
  | Except.ok svcs => buildRoutes gi svcs []

/-- Models `strings.HasPrefix` on character lists. -/
def hasPre : List Char → List Char → Bool
| [], _ => true
| _ :: _, [] => false
| p :: ps, x :: xs => if p = x then hasPre ps xs else false

/-- `ParseServiceFromPath` from routes.go (lines 171-187), on character
lists: require the configured route prefix, drop it, and split the rest at
the first slash; with no slash the remainder defaults to `"/"`. -/
def parseServiceFromPath (pfx path : List Char) : Option (List Char × List Char) :=
  if hasPre pfx path then
    let rest := path.drop pfx.length
    if rest = [] then none
    else
      let rem := rest.dropWhile (fun c => c != '/')
      if rem = [] then some (rest, ['/'])
      else some (rest.takeWhile (fun c => c != '/'), rem)
  else none

/-- `bucket` from internal/gateway/middleware.go. -/
structure Bucket where
  count : Nat
  resetAt : Int
deriving DecidableEq

/-- `RateLimiter` from middleware.go: fixed-window buckets per key. -/
structure RateLimiter where
  buckets : List (String × Bucket)
  limit : Nat
  window : Int
deriving DecidableEq

/-- `NewRateLimiter` from middleware.go (window in nanoseconds, as
`time.Duration(windowSeconds) * time.Second`). -/
def NewRateLimiter (limit : Nat) (windowSeconds : Int) : RateLimiter :=
  { buckets := [], limit := limit, window := windowSeconds * 1000000000 }

/-- `RateLimiter.allow` from middleware.go (lines 96-113): a missing or
expired (strictly past `resetAt`) bucket is replaced by a fresh one with
count 1 and the call is allowed; otherwise the call is rejected at the limit
and counted below it. -/
def RateLimiter.allow (rl : RateLimiter) (key : String) (now : Int) :
    Bool × RateLimiter :=
  match lookupA rl.buckets key with
  | none =>
    (true, { rl with
      buckets := setAssoc rl.buckets key { count := 1, resetAt := now + rl.window } })
  | some b =>
    if now > b.resetAt then
      (true, { rl with
        buckets := setAssoc rl.buckets key { count := 1, resetAt := now + rl.window } })
    else if b.count ≥ rl.limit then
      (false, rl)
    else
      (true, { rl with
        buckets := setAssoc rl.buckets key { count := b.count + 1, resetAt := b.resetAt } })

/-- Run `allow` for one key at the given sequence of clock readings and
count how many calls were allowed. -/
def countAllowed (key : String) : RateLimiter → List Int → Nat × RateLimiter
| rl, [] => (0, rl)
| rl, t :: ts =>
  let r := rl.allow key t
  let res := countAllowed key r.2 ts
  ((if r.1 then 1 else 0) + res.1, res.2)

/-- An IP address as needed by the loopback test: dotted-quad IPv4 or an
IPv6 address given by its eight 16-bit groups. -/
inductive IP where
| v4 (a b c d : Nat)
| v6 (groups : List Nat)
deriving DecidableEq

/-- Models `net.IP.IsLoopback`: `127.0.0.0/8` for IPv4, `::1` for IPv6. -/
def IP.isLoopback : IP → Bool
| IP.v4 a _ _ _ => a = 127
| IP.v6 gs => gs = [0, 0, 0, 0, 0, 0, 0, 1]

/-- One decimal IPv4 field: non-empty, all digits, no leading zeros, at most
three digits, value at most 255 (as in current Go `net.ParseIP`). -/
def parseDecOctet (s : List Char) : Option Nat :=
  if s = [] then none
  else if ¬ (s.all (fun c => c.isDigit)) then none
  else if 1 < s.length ∧ s.head? = some '0' then none
  else if 3 < s.length then none
  else if digitsVal s ≤ 255 then some (digitsVal s) else none

/-- Models `net.ParseIP` on dotted-quad IPv4 text. -/
def parseIPv4 (s : List Char) : Option IP :=
  match s.splitOn '.' with
  | [a, b, c, d] =>
    match parseDecOctet a, parseDecOctet b, parseDecOctet c, parseDecOctet d with
    | some a', some b', some c', some d' => some (IP.v4 a' b' c' d')
    | _, _, _, _ => none
  | _ => none

def hexVal (c : Char) : Option Nat :=
  if '0' ≤ c ∧ c ≤ '9' then some (c.toNat - '0'.toNat)
  else if 'a' ≤ c ∧ c ≤ 'f' then some (c.toNat - 'a'.toNat + 10)
  else if 'A' ≤ c ∧ c ≤ 'F' then some (c.toNat - 'A'.toNat + 10)
  else none

/-- One 16-bit IPv6 group: one to four hex digits. -/
def parseHexGroup (s : List Char) : Option Nat :=
  if s = [] ∨ 4 < s.length then none
  else s.foldl (fun acc c =>
    match acc, hexVal c with
    | some n, some v => some (n * 16 + v)
    | _, _ => none) (some 0)

def parseGroups (parts : List (List Char)) : Option (List Nat) :=
  parts.foldr (fun p acc =>
    match parseHexGroup p, acc with
    | some v, some vs => some (v :: vs)
    | _, _ => none) (some [])

/-- Split at the first `::`, if any. -/
def breakDoubleColon : List Char → Option (List Char × List Char)
| [] => none
| ':' :: ':' :: rest => some ([], rest)
| c :: rest => (breakDoubleColon rest).map (fun p => (c :: p.1, p.2))

/-- Models `net.ParseIP` on colon-form IPv6 text (no zone, no embedded
IPv4): eight hex groups, or fewer with a single `::` filling in zeros. -/
def parseIPv6 (s : List Char) : Option IP :=
  match breakDoubleColon s with
  | none =>
    match parseGroups (s.splitOn ':') with
    | some gs => if gs.length = 8 then some (IP.v6 gs) else none
    | none => none
  | some (left, right) =>
    if (breakDoubleColon right).isSome then none
    else
      let lparts := if left = [] then [] else left.splitOn ':'
      let rparts := if right = [] then [] else right.splitOn ':'
      match parseGroups lparts, parseGroups rparts with
      | some ls, some rs =>
        if ls.length + rs.length ≤ 7 then
          some (IP.v6 (ls ++ List.replicate (8 - ls.length - rs.length) 0 ++ rs))
        else none
      | _, _ => none

/-- Models `net.ParseIP`: the first `.` or `:` decides the family. -/
def parseIP (s : String) : Option IP :=
  match s.data.find? (fun c => c == '.' || c == ':') with
  | some '.' => parseIPv4 s.data
  | some _ => parseIPv6 s.data
  | none => none

/-- Models `net.SplitHostPort` for the bracketed `[host]:port` and plain
single-colon `host:port` forms. -/
def splitHostPort (addr : String) : Option (String × String) :=
  match addr.data with
  | '[' :: rest =>
    let host := rest.takeWhile (fun c => c != ']')
    match rest.dropWhile (fun c => c != ']') with
    | ']' :: ':' :: port =>
      if port.contains ':' then none else some (⟨host⟩, ⟨port⟩)
    | _ => none
  | cs =>
    if (cs.filter (fun c => c == ':')).length = 1 then
      some (⟨cs.takeWhile (fun c => c != ':')⟩, ⟨(cs.dropWhile (fun c => c != ':')).drop 1⟩)
    else none

def isSpaceChar (c : Char) : Bool :=
  c == ' ' || c == '\t' || c == '\n' || c == '\r'

/-- Models `strings.TrimSpace` for the whitespace appearing in headers. -/
def trimSpace (s : String) : String :=
  ⟨((s.data.dropWhile isSpaceChar).reverse.dropWhile isSpaceChar).reverse⟩

/-- `strings.SplitN(xff, ",", 2)` followed by taking the first element. -/
def firstCommaField (s : String) : String :=
  ⟨s.data.takeWhile (fun c => c != ',')⟩

/-- The `remoteHost` variable of `clientIPAddress`: the host half of
`RemoteAddr`, or the empty string when splitting fails (the Go code ignores
the error and keeps the zero value). -/
def hostOf (remoteAddr : String) : String :=
  match splitHostPort remoteAddr with
  | some p => p.1
  | none => ""

/-- `clientIPAddress` from middleware.go (lines 261-280) as a function of
`RemoteAddr` and the `X-Forwarded-For` header value (empty when absent):
only a loopback peer with a non-empty XFF yields the first trimmed XFF
element; everything else falls back to the remote host or `unknown`. -/
def clientIPAddress (remoteAddr xff : String) : String :=
  let remoteHost := hostOf remoteAddr
  let fallback := if remoteHost ≠ "" then remoteHost else "unknown"
  match parseIP remoteHost with
  | some ip =>
    if ip.isLoopback && xff ≠ "" then
      let clientIP := trimSpace (firstCommaField xff)
      if clientIP ≠ "" then clientIP else fallback
    else fallback
  | none => fallback

end Gateway

namespace Router

/-- One FNV-1a step on a 32-bit accumulator: XOR the value in, multiply by
the FNV prime, reduce modulo `2^32`. -/
def fnv1aStep (h x : Nat) : Nat := ((h ^^^ x) * 16777619) % 4294967296

/-- `fnv1a` from the router package: the Go code iterates the string with
`range`, i.e. Unicode code point by code point, XORs the code point value
into a 32-bit accumulator and multiplies by the FNV prime modulo `2^32`. -/
def fnv1a (s : String) : Nat :=
  s.data.foldl (fun h c => fnv1aStep h c.toNat) 2166136261

/-- Reference definition following the specification's words, for comparison
with `fnv1a`: the canonical FNV-1a 32-bit hash over a byte sequence
(offset basis 2166136261, prime 16777619). -/
def fnv1aBytesSpec (bs : List Nat) : Nat :=
  bs.foldl fnv1aStep 2166136261

/-- Standard UTF-8 encoding of one code point, as byte values. -/
def utf8EncodeChar (c : Char) : List Nat :=
  let n := c.toNat
  if n < 128 then [n]
  else if n < 2048 then [192 + n / 64, 128 + n % 64]
  else if n < 65536 then [224 + n / 4096, 128 + (n / 64) % 64, 128 + n % 64]
  else [240 + n / 262144, 128 + (n / 4096) % 64, 128 + (n / 64) % 64, 128 + n % 64]

/-- The UTF-8 byte sequence of a string. -/
def utf8Encode (s : String) : List Nat := (s.data.map utf8EncodeChar).flatten

/-- `HealthStatus` from the router package (Unknown is the zero value). -/
inductive HealthStatus where
| unknown
| healthy
| unhealthy
| degraded
deriving DecidableEq

/-- `Strategy` from the router package. -/
inductive Strategy where
| RoundRobin
| LeastConnections
| Random
| WeightedRoundRobin
| IPHash
deriving DecidableEq

/-- `ParseStrategy` from the router package: case-sensitive match of the two
accepted spellings per strategy; anything else is RoundRobin. -/
def ParseStrategy (name : String) : Strategy :=
  if name = "RoundRobin" ∨ name = "roundrobin" then Strategy.RoundRobin
  else if name = "LeastConnections" ∨ name = "leastconnections" then
    Strategy.LeastConnections
  else if name = "Random" ∨ name = "random" then Strategy.Random
  else if name = "WeightedRoundRobin" ∨ name = "weightedroundrobin" then
    Strategy.WeightedRoundRobin
  else if name = "IPHash" ∨ name = "iphash" then Strategy.IPHash
  else Strategy.RoundRobin

/-- `Instance` from the router package; the two `time.Time` fields become
`Int` instants. -/
structure Instance where
  ServiceName : String
  ServiceID : String
  Address : String
  Port : Nat
  Status : HealthStatus
  Metadata : List (String × String)
  RegisteredAt : Int
  LastHealthCheck : Int
deriving DecidableEq

/-- `Context` from the router package; a `nil` headers map and an empty one
behave identically under `Get`-style lookup. -/
structure Context where
  PreferredZone : String
  Headers : List (String × String)
  SessionID : String
deriving DecidableEq

/-- `RequestResult` from the router package (`ResponseTime` in
nanoseconds). -/
structure RequestResult where
  ServiceID : String
  Success : Bool
  ResponseTime : Int
  StatusCode : Nat
  ErrorMessage : String
deriving DecidableEq

/-- `serviceStats` from the router package, atomics replaced by plain
fields. -/
structure ServiceStats where
  serviceName : String
  totalRequests : Int
  successfulRequests : Int
  failedRequests : Int
  totalResponseNanos : Int
  instanceCounts : List (String × Int)
deriving DecidableEq

def newServiceStats (serviceName : String) : ServiceStats :=
  { serviceName := serviceName
    totalRequests := 0
    successfulRequests := 0
    failedRequests := 0
    totalResponseNanos := 0
    instanceCounts := [] }

/-- `serviceStats.recordRequest`: bump the total and the per-instance
count. -/
def ServiceStats.recordRequest (s : ServiceStats) (instanceID : String) :
    ServiceStats :=
  { s with
    totalRequests := s.totalRequests + 1
    instanceCounts := setAssoc s.instanceCounts instanceID
      ((lookupA s.instanceCounts instanceID).getD 0 + 1) }

/-- `serviceStats.report`: count the success or failure and add the response
time. -/
def ServiceStats.report (s : ServiceStats) (result : RequestResult) :
    ServiceStats :=
  let s' :=
    if result.Success then
      { s with successfulRequests := s.successfulRequests + 1 }
    else
      { s with failedRequests := s.failedRequests + 1 }
  { s' with totalResponseNanos := s'.totalResponseNanos + result.ResponseTime }

/-- `LoadBalancer` from the router package: the three maps, as association
lists (the provider becomes an explicit argument of `Select`). -/
structure LoadBalancer where
  roundRobinIdx : List (String × Int)
  connectionCount : List (String × List (String × Int))
  stats : List (String × ServiceStats)
deriving DecidableEq

/-- `NewLoadBalancer`: all maps empty. -/
def NewLoadBalancer : LoadBalancer :=
  { roundRobinIdx := [], connectionCount := [], stats := [] }

def isHealthy (inst : Instance) : Bool :=
  match inst.Status with
  | HealthStatus.healthy => true
  | _ => false

def isNonUnknown (inst : Instance) : Bool :=
  match inst.Status with
  | HealthStatus.unknown => false
  | _ => true

/-- `filterHealthy` from the router package. -/
def filterHealthy (instances : List Instance) : List Instance :=
  instances.filter isHealthy

/-- `filterNonUnknown` from the router package. -/
def filterNonUnknown (instances : List Instance) : List Instance :=
  instances.filter isNonUnknown

/-- `resolveStrategy`: the first candidate carrying a non-empty
`lb_strategy` metadata key decides; otherwise RoundRobin. -/
def resolveStrategy : List Instance → Strategy
| [] => Strategy.RoundRobin
| inst :: rest =>
  match lookupA inst.Metadata "lb_strategy" with
  | some s => if s ≠ "" then ParseStrategy s else resolveStrategy rest
  | none => resolveStrategy rest

/-- Models `strconv.Atoi`. -/
def parseAtoi (s : String) : Option Int :=
  match s.data with
  | [] => none
  | '-' :: rest =>
    if rest ≠ [] ∧ rest.all (fun c => c.isDigit) then
      some (-(digitsVal rest : Int))
    else none
  | '+' :: rest =>
    if rest ≠ [] ∧ rest.all (fun c => c.isDigit) then
      some (digitsVal rest : Int)
    else none
  | l =>
    if l.all (fun c => c.isDigit) then some (digitsVal l : Int) else none

/-- Weight parsing in `selectWeightedRoundRobin`: metadata `weight` when it
parses to a positive integer, else 1. -/
def weightOf (inst : Instance) : Nat :=
  match lookupA inst.Metadata "weight" with
  | some w =>
    match parseAtoi w with
    | some parsed => if parsed > 0 then parsed.toNat else 1
    | none => 1
  | none => 1

/-- The weighted expansion in `selectWeightedRoundRobin`: each instance
repeated `weight` times. -/
def expandWeighted (instances : List Instance) : List Instance :=
  (instances.map (fun inst => List.replicate (weightOf inst) inst)).flatten

/-- `selectRoundRobin`: increment the per-service counter and index by its
absolute value modulo the candidate count. -/
def selectRoundRobin (lb : LoadBalancer) (serviceName : String)
    (instances : List Instance) : Option Instance × LoadBalancer :=
  let idx := (lookupA lb.roundRobinIdx serviceName).getD 0
  let n := idx + 1
  let lb' := { lb with roundRobinIdx := setAssoc lb.roundRobinIdx serviceName n }
  (instances.get? (n.natAbs % instances.length), lb')

/-- `selectWeightedRoundRobin`: RoundRobin over the weighted expansion,
keyed by `<serviceName>-weighted`. -/
def selectWeightedRoundRobin (lb : LoadBalancer) (serviceName : String)
    (instances : List Instance) : Option Instance × LoadBalancer :=
  selectRoundRobin lb (serviceName ++ "-weighted") (expandWeighted instances)

/-- The scan loop of `selectLeastConnections`: create missing counters at
zero and keep the first candidate with the smallest count. -/
def lcLoop : List Instance → List (String × Int) → Option Instance → Int →
    List (String × Int) × Option Instance
| [], counts, best, _ => (counts, best)
| inst :: rest, counts, best, bestCount =>
  let counts' :=
    if (lookupA counts inst.ServiceID).isSome then counts
    else setAssoc counts inst.ServiceID 0
  let v := (lookupA counts' inst.ServiceID).getD 0
  if bestCount < 0 ∨ v < bestCount then lcLoop rest counts' (some inst) v
  else lcLoop rest counts' best bestCount

/-- `selectLeastConnections`: scan for the least-loaded candidate, then
increment its connection counter. -/
def selectLeastConnections (lb : LoadBalancer) (serviceName : String)
    (instances : List Instance) : Option Instance × LoadBalancer :=
  let counts := (lookupA lb.connectionCount serviceName).getD []
  let r := lcLoop instances counts none (-1)
  match r.2 with
  | some best =>
    let c := (lookupA r.1 best.ServiceID).getD 0
    let counts' := setAssoc r.1 best.ServiceID (c + 1)
    (some best,
      { lb with connectionCount := setAssoc lb.connectionCount serviceName counts' })
  | none =>
    (none, { lb with connectionCount := setAssoc lb.connectionCount serviceName r.1 })

/-- `selectIPHash`: session key, else correlation header, else a random key
(the oracle `randKey`); FNV-1a of the key modulo the candidate count. -/
def selectIPHash (instances : List Instance) (ctx : Context)
    (randKey : String) : Option Instance :=
  let key := if ctx.SessionID ≠ "" then ctx.SessionID
    else (lookupA ctx.Headers "X-Correlation-ID").getD ""
  let key := if key ≠ "" then key else randKey
  instances.get? (fnv1a key % instances.length)

/-- `selectRandom`: uniform choice, with the random draw supplied as the
oracle `randVal` (already reduced modulo the candidate count as
`rand.IntN` guarantees). -/
def selectRandom (instances : List Instance) (randVal : Nat) :
    Option Instance :=
  instances.get? (randVal % instances.length)

/-- `LoadBalancer.recordRequest`: insert-or-get the per-instance stats entry
and record the selection. -/
def recordRequest (lb : LoadBalancer) (serviceName : String)
    (inst : Instance) : LoadBalancer :=
  let s := (lookupA lb.stats inst.ServiceID).getD (newServiceStats serviceName)
  { lb with stats := setAssoc lb.stats inst.ServiceID (s.recordRequest inst.ServiceID) }

/-- The strategy `switch` of `LoadBalancer.Select` (router package, lines
48-59), factored out by name: RoundRobin is also the default branch. -/
def executeStrategy (lb : LoadBalancer) (serviceName : String) (ctx : Context)
    (candidates : List Instance) (randVal : Nat) (randKey : String) :
    Option Instance × LoadBalancer :=
  match resolveStrategy candidates with
  | Strategy.LeastConnections => selectLeastConnections lb serviceName candidates
  | Strategy.WeightedRoundRobin => selectWeightedRoundRobin lb serviceName candidates
  | Strategy.IPHash => (selectIPHash candidates ctx randKey, lb)
  | Strategy.Random => (selectRandom candidates randVal, lb)
  | Strategy.RoundRobin => selectRoundRobin lb serviceName candidates

/-- `LoadBalancer.Select` (router package, lines 31-66), with the provider
answer and the random draws supplied as arguments: filter to Healthy, fall
back to non-Unknown, give up when empty; then dispatch on the resolved
strategy and record the selection. -/
def Select (lb : LoadBalancer) (serviceName : String) (ctx : Context)
    (fetched : Except String (List Instance)) (randVal : Nat)
    (randKey : String) : Except String (Option Instance) × LoadBalancer :=
  match fetched with
  | Except.error e => (Except.error e, lb)
  | Except.ok instances =>
    let candidates := filterHealthy instances
    let candidates :=
      if candidates.length = 0 then filterNonUnknown instances else candidates
    if candidates.length = 0 then (Except.ok none, lb)
    else
      let sel := executeStrategy lb serviceName ctx candidates randVal randKey
      match sel.1 with
      | some inst => (Except.ok (some inst), recordRequest sel.2 serviceName inst)
      | none => (Except.ok none, sel.2)

/-- `LoadBalancer.ReportResult` (router package, lines 68-84): decrement the
instance's connection counter wherever one exists (saturating at zero), and
feed the result into the per-instance stats entry when one exists. -/
def ReportResult (lb : LoadBalancer) (serviceID : String)
    (result : RequestResult) : LoadBalancer :=
  let cc := lb.connectionCount.map (fun entry =>
    (entry.1,
      match lookupA entry.2 serviceID with
      | some c => if c > 0 then setAssoc entry.2 serviceID (c - 1) else entry.2
      | none => entry.2))
  let st :=
    match lookupA lb.stats serviceID with
    | some s => setAssoc lb.stats serviceID (s.report result)
    | none => lb.stats
  { lb with connectionCount := cc, stats := st }

/-- `Stats` result type from the router package. -/
structure StatsResult where
  ServiceName : String
  TotalRequests : Int
  SuccessfulRequests : Int
  FailedRequests : Int
  AverageResponseTime : Int
  InstanceRequestCounts : List (String × Int)
deriving DecidableEq

/-- The local accumulator variables of `LoadBalancer.Stats`. -/
structure StatsAcc where
  totalReq : Int
  successReq : Int
  failedReq : Int
  totalTicks : Int
  instanceCounts : List (String × Int)
deriving DecidableEq

/-- The inner `instanceCounts[instID] += count` loop of `Stats`. -/
def mergeCounts (acc : List (String × Int)) (counts : List (String × Int)) :
    List (String × Int) :=
  counts.foldl (fun m entry =>
    setAssoc m entry.1 ((lookupA m entry.1).getD 0 + entry.2)) acc

/-- `LoadBalancer.Stats` (router package, lines 86-122): aggregate the
serviceID-keyed stats whose service name matches, averaging response time
over the total request count (truncated division as in Go). -/
def Stats (lb : LoadBalancer) (serviceName : String) : StatsResult :=
  let acc := lb.stats.foldl (fun (acc : StatsAcc) entry =>
    if entry.2.serviceName = serviceName then
      { totalReq := acc.totalReq + entry.2.totalRequests
        successReq := acc.successReq + entry.2.successfulRequests
        failedReq := acc.failedReq + entry.2.failedRequests
        totalTicks := acc.totalTicks + entry.2.totalResponseNanos
        instanceCounts := mergeCounts acc.instanceCounts entry.2.instanceCounts }
    else acc)
    { totalReq := 0, successReq := 0, failedReq := 0, totalTicks := 0,
      instanceCounts := [] }
  { ServiceName := serviceName
    TotalRequests := acc.totalReq
    SuccessfulRequests := acc.successReq
    FailedRequests := acc.failedReq
    AverageResponseTime := if acc.totalReq > 0 then Int.tdiv acc.totalTicks acc.totalReq else 0
    InstanceRequestCounts := acc.instanceCounts }

end Router

namespace HealthMonitor

theorem runOps_append (cb : CircuitBreaker) (l₁ l₂ : List BreakerOp) :
    runOps cb (l₁ ++ l₂) = runOps (runOps cb l₁) l₂ := by
  induction l₁ generalizing cb with
  | nil => rfl
  | cons op rest ih =>
    cases op <;> simp only [List.cons_append, runOps] <;> exact ih _

theorem failCount_cons_fail (t : Int) (ops : List BreakerOp) :
    failCount (BreakerOp.failStep t :: ops) = failCount ops + 1 := by
  simp [failCount, isFailStep, List.filter]

theorem failCount_cons_allow (t : Int) (ops : List BreakerOp) :
    failCount (BreakerOp.allowStep t :: ops) = failCount ops := by
  simp [failCount, isFailStep, List.filter]

/-- While the accumulated failures stay below the threshold and no success is
recorded, a closed breaker stays closed and just counts failures. -/
theorem run_steps_closed (ops : List BreakerOp) :
    ∀ cb : CircuitBreaker, cb.state = BreakerState.closed →
    (∀ op ∈ ops, op ≠ BreakerOp.succStep) →
    cb.failureCount + failCount ops < cb.failureThreshold →
    runOps cb ops = { cb with failureCount := cb.failureCount + failCount ops } := by
  induction ops with
  | nil =>
    intro cb hstate _ _
    simp [runOps, failCount, List.filter]
  | cons op rest ih =>
    intro cb hstate hnos hlt
    cases op with
    | allowStep t =>
      have hAllow : (cb.Allow t).2 = cb := by
        simp [CircuitBreaker.Allow, hstate]
      rw [failCount_cons_allow] at hlt
      rw [runOps, hAllow, failCount_cons_allow]
      exact ih cb hstate (fun op h => hnos op (List.mem_cons_of_mem _ h)) hlt
    | failStep t =>
      rw [failCount_cons_fail] at hlt
      have hnotge : ¬ (cb.failureCount + 1 ≥ cb.failureThreshold) := by
        omega
      have hRF : cb.RecordFailure t = { cb with failureCount := cb.failureCount + 1 } := by
        simp [CircuitBreaker.RecordFailure, hstate, hnotge]
      rw [runOps, hRF]
      have := ih { cb with failureCount := cb.failureCount + 1 } (by simp [hstate])
        (fun op h => hnos op (List.mem_cons_of_mem _ h)) (by simp; omega)
      rw [this]
      simp [failCount_cons_fail]
      omega
    | succStep =>
      exact absurd rfl (hnos BreakerOp.succStep (List.mem_cons_self _ _))

end HealthMonitor

namespace HealthMonitor

/-- C5: starting from a fresh (closed) breaker with failure threshold `F` and
break duration `D`, any sequence of `Allow`/`RecordFailure` operations that
contains exactly `F` `RecordFailure` calls and no `RecordSuccess`, ending with
the `F`-th failure at time `tF`, leaves the breaker Open with `openedAt = tF`,
and every `Allow` at a time `t` with `t - tF < D` returns `false` and leaves
the breaker unchanged. -/
theorem breaker_opens_after_threshold_failures
    (F : Nat) (D tF : Int) (init : List BreakerOp)
    (hnos : ∀ op ∈ init, op ≠ BreakerOp.succStep)
    (hcnt : failCount init + 1 = F) :
    (runOps (NewCircuitBreaker F D) (init ++ [BreakerOp.failStep tF])).state
      = BreakerState.opened ∧
    (runOps (NewCircuitBreaker F D) (init ++ [BreakerOp.failStep tF])).openedAt = tF ∧
    ∀ t : Int, t - tF < D →
      (runOps (NewCircuitBreaker F D) (init ++ [BreakerOp.failStep tF])).Allow t
        = (false, runOps (NewCircuitBreaker F D) (init ++ [BreakerOp.failStep tF])) := by
  have hlt : (NewCircuitBreaker F D).failureCount + failCount init
      < (NewCircuitBreaker F D).failureThreshold := by
    simp [NewCircuitBreaker]
    omega
  have hclosed := run_steps_closed init (NewCircuitBreaker F D) rfl hnos hlt
  rw [runOps_append, hclosed]
  have hge : failCount init + 1 ≥ F := by omega
  have hRF : CircuitBreaker.RecordFailure
      { NewCircuitBreaker F D with failureCount := (NewCircuitBreaker F D).failureCount + failCount init } tF
      = { state := BreakerState.opened, failureCount := failCount init + 1,
          failureThreshold := F, breakDuration := D, openedAt := tF } := by
    simp [CircuitBreaker.RecordFailure, NewCircuitBreaker, hge]
  rw [runOps, runOps, hRF]
  refine ⟨rfl, rfl, ?_⟩
  intro t ht
  have hnot : ¬ (t - tF ≥ D) := by omega
  simp [CircuitBreaker.Allow, hnot]

/-- Witness for C5 at the concrete trace
`[Allow 0, RecordFailure 0, Allow 1] ++ [RecordFailure 2]` with `F = 2`,
`D = 5`: the breaker ends Open at time 2 and `Allow 3` is refused. -/
theorem breaker_opens_after_threshold_failures_witness :
    (runOps (NewCircuitBreaker 2 5)
      ([BreakerOp.allowStep 0, BreakerOp.failStep 0, BreakerOp.allowStep 1]
        ++ [BreakerOp.failStep 2])).state = BreakerState.opened ∧
    (runOps (NewCircuitBreaker 2 5)
      ([BreakerOp.allowStep 0, BreakerOp.failStep 0, BreakerOp.allowStep 1]
        ++ [BreakerOp.failStep 2])).Allow 3
      = (false, runOps (NewCircuitBreaker 2 5)
          ([BreakerOp.allowStep 0, BreakerOp.failStep 0, BreakerOp.allowStep 1]
            ++ [BreakerOp.failStep 2])) := by
  have h := breaker_opens_after_threshold_failures 2 5 2
    [BreakerOp.allowStep 0, BreakerOp.failStep 0, BreakerOp.allowStep 1]
    (by decide) (by decide)
  exact ⟨h.1, h.2.2 3 (by decide)⟩

/-- C1: demonstration of the divergence on the code as written.  With
threshold 1 and break duration 5, a failure at time 0 opens the breaker; at
time 5 the first `Allow` is admitted and moves the breaker to HalfOpen, but a
second `Allow` (with no result recorded in between) is admitted as well, so
HalfOpen does not admit exactly one caller at a time. -/
theorem halfOpen_admits_every_caller :
    ((((NewCircuitBreaker 1 5).RecordFailure 0).Allow 5).1 = true) ∧
    ((((NewCircuitBreaker 1 5).RecordFailure 0).Allow 5).2.state
      = BreakerState.halfOpen) ∧
    (((((NewCircuitBreaker 1 5).RecordFailure 0).Allow 5).2.Allow 5).1 = true) := by
  decide

end HealthMonitor

namespace Gateway

theorem forwardsIn_le_length (l : List AttemptOutcome) : forwardsIn l ≤ l.length := by
  induction l with
  | nil => simp [forwardsIn]
  | cons o rest ih =>
    cases o with
    | refused => simp [forwardsIn]; omega
    | transportError => simp [forwardsIn]; omega
    | response br =>
      simp only [forwardsIn, List.length_cons]
      split <;> omega

/-- Exhaustion behaviour of the attempt loop when no attempt succeeds: the
result is determined by the final `lastResp` and `lastStatus` variables. -/
theorem serveAttempts_exhaust (l : List AttemptOutcome) :
    ∀ (ls : Nat) (lr : Option BufferedResponse),
    (∀ o ∈ l, isSuccessResp o = false) →
    serveAttempts l ls lr =
      (match l.foldl updLastResp lr with
       | some br => ServeResult.exhaustedLast br
       | none => ServeResult.exhaustedError
           (if lastStatusAfter ls l = 0 then 502 else lastStatusAfter ls l)) := by
  induction l with
  | nil =>
    intro ls lr _
    cases lr <;> simp [serveAttempts, lastStatusAfter]
  | cons o rest ih =>
    intro ls lr h
    cases o with
    | refused =>
      simpa [serveAttempts, lastStatusAfter, updLastResp, updLastStatus, List.foldl]
        using ih 503 lr (fun o ho => h o (List.mem_cons_of_mem _ ho))
    | transportError =>
      simpa [serveAttempts, lastStatusAfter, updLastResp, updLastStatus, List.foldl]
        using ih ls lr (fun o ho => h o (List.mem_cons_of_mem _ ho))
    | response br =>
      have hge : ¬ br.statusCode < 500 := by
        have := h _ (List.mem_cons_self _ _)
        simpa [isSuccessResp] using this
      simpa [serveAttempts, hge, lastStatusAfter, updLastResp, updLastStatus, List.foldl]
        using ih br.statusCode (some br) (fun o ho => h o (List.mem_cons_of_mem _ ho))

theorem foldl_updLastResp_none (l : List AttemptOutcome) :
    ∀ lr : Option BufferedResponse, l.foldl updLastResp lr = none →
    lr = none ∧ ∀ o ∈ l, isResponseOutcome o = false := by
  induction l with
  | nil => intro lr h; simpa using h
  | cons o rest ih =>
    intro lr h
    cases o with
    | refused =>
      have := ih lr (by simpa [updLastResp] using h)
      exact ⟨this.1, by
        intro o ho
        rcases List.mem_cons.mp ho with rfl | ho
        · rfl
        · exact this.2 o ho⟩
    | transportError =>
      have := ih lr (by simpa [updLastResp] using h)
      exact ⟨this.1, by
        intro o ho
        rcases List.mem_cons.mp ho with rfl | ho
        · rfl
        · exact this.2 o ho⟩
    | response br =>
      have := ih (some br) (by simpa [updLastResp] using h)
      exact absurd this.1 (by simp)

theorem lastStatusAfter_no_response (l : List AttemptOutcome) :
    ∀ ls : Nat, (∀ o ∈ l, isResponseOutcome o = false) →
    lastStatusAfter ls l = if l.any isRefusedOutcome then 503 else ls := by
  induction l with
  | nil => intro ls _; simp [lastStatusAfter]
  | cons o rest ih =>
    intro ls h
    cases o with
    | refused =>
      have h2 := ih 503 (fun o ho => h o (List.mem_cons_of_mem _ ho))
      show lastStatusAfter 503 rest
        = if (AttemptOutcome.refused :: rest).any isRefusedOutcome then 503 else ls
      rw [h2]
      simp [isRefusedOutcome]
    | transportError =>
      have := ih ls (fun o ho => h o (List.mem_cons_of_mem _ ho))
      simpa [lastStatusAfter, updLastStatus, List.foldl, isRefusedOutcome] using this
    | response br =>
      exact absurd (h _ (List.mem_cons_self _ _)) (by simp [isResponseOutcome])

/-- C2 (amended): the proxy makes at most `1 + retryCount` forwarding
attempts; and when no attempt yields a sub-500 response, the client receives
the last buffered 5xx response if any attempt produced one, otherwise 503 if
any attempt was refused by the circuit breaker, otherwise 502. -/
theorem proxy_attempts_and_exhaustion (retryCount : Nat)
    (outcomes : List AttemptOutcome) :
    forwardsIn (outcomes.take (retryCount + 1)) ≤ retryCount + 1 ∧
    ((∀ o ∈ outcomes.take (retryCount + 1), isSuccessResp o = false) →
      ServeHTTPAttempts retryCount outcomes =
        (match lastBuffered (outcomes.take (retryCount + 1)) with
         | some br => ServeResult.exhaustedLast br
         | none => ServeResult.exhaustedError
             (if (outcomes.take (retryCount + 1)).any isRefusedOutcome
              then 503 else 502))) := by
  constructor
  · calc forwardsIn (outcomes.take (retryCount + 1))
        ≤ (outcomes.take (retryCount + 1)).length := forwardsIn_le_length _
      _ ≤ retryCount + 1 := by
        rw [List.length_take]
        exact Nat.min_le_left _ _
  · intro h
    rw [ServeHTTPAttempts, serveAttempts_exhaust _ 0 none h, lastBuffered]
    cases hfold : (outcomes.take (retryCount + 1)).foldl updLastResp none with
    | some br => simp
    | none =>
      have hnr := (foldl_updLastResp_none _ none hfold).2
      have hls := lastStatusAfter_no_response (outcomes.take (retryCount + 1)) 0 hnr
      simp only [hls]
      by_cases hany : (outcomes.take (retryCount + 1)).any isRefusedOutcome
      · simp [hany]
      · simp [hany]

/-- Witness for the amended C2 at `retryCount = 1` with a breaker refusal
followed by a buffered 503: the loop forwards at most twice and the buffered
503 is replayed to the client. -/
theorem proxy_attempts_and_exhaustion_witness :
    forwardsIn ([AttemptOutcome.refused,
      AttemptOutcome.response { statusCode := 503, header := [], body := [] }].take 2) ≤ 2 ∧
    ServeHTTPAttempts 1 [AttemptOutcome.refused,
      AttemptOutcome.response { statusCode := 503, header := [], body := [] }]
      = ServeResult.exhaustedLast { statusCode := 503, header := [], body := [] } := by
  refine ⟨(proxy_attempts_and_exhaustion 1 _).1, ?_⟩
  have h := (proxy_attempts_and_exhaustion 1 [AttemptOutcome.refused,
    AttemptOutcome.response { statusCode := 503, header := [], body := [] }]).2 (by decide)
  simpa using h

/-- C2 as stated fails on the code: with `retryCount = 1`, a breaker refusal
on the first attempt and a transport error on the second, no 5xx was buffered
and the last recorded outcome is a transport error, yet the client receives
503 (the status recorded by the earlier refusal), not 502. -/
theorem proxy_exhaustion_counterexample :
    ServeHTTPAttempts 1 [AttemptOutcome.refused, AttemptOutcome.transportError]
      = ServeResult.exhaustedError 503 ∧
    ServeHTTPAttempts 1 [AttemptOutcome.refused, AttemptOutcome.transportError]
      ≠ ServeResult.exhaustedError 502 := by
  decide

end Gateway


theorem mem_setAssoc {α : Type} (l : List (String × α)) (key : String) (v : α)
    (k : String) (r : α) (h : (k, r) ∈ setAssoc l key v) :
    (k, r) ∈ l ∨ (k = key ∧ r = v) := by
  induction l with
  | nil =>
    simp [setAssoc] at h
    exact Or.inr h
  | cons e rest ih =>
    rw [setAssoc] at h
    split at h
    · rcases List.mem_cons.mp h with h1 | h1
      · exact Or.inr (Prod.ext_iff.mp h1)
      · exact Or.inl (List.mem_cons_of_mem _ h1)
    · rcases List.mem_cons.mp h with h1 | h1
      · exact Or.inl (by rw [h1]; exact List.mem_cons_self _ _)
      · rcases ih h1 with h2 | h2
        · exact Or.inl (List.mem_cons_of_mem _ h2)
        · exact Or.inr h2

namespace Gateway

theorem buildRoutes_mem (gi : String → Except String (List ConsulInstance))
    (svcs : List String) :
    ∀ (acc : List (String × ServiceRoute)) (k : String) (r : ServiceRoute),
    (k, r) ∈ buildRoutes gi svcs acc →
    (k, r) ∈ acc ∨
      ∃ s, s ∈ svcs ∧ eqFold s "consul" = false ∧ lowerStr s = k ∧
        ∃ insts, gi s = Except.ok insts ∧ backendsOf insts ≠ [] ∧
          r = { ServiceName := s, Backends := backendsOf insts } := by
  induction svcs with
  | nil =>
    intro acc k r h
    exact Or.inl h
  | cons name rest ih =>
    intro acc k r h
    by_cases hc : eqFold name "consul" = true
    · rw [buildRoutes, if_pos hc] at h
      rcases ih acc k r h with h1 | ⟨s, hs, h3⟩
      · exact Or.inl h1
      · exact Or.inr ⟨s, List.mem_cons_of_mem _ hs, h3⟩
    · cases hgi : gi name with
      | error e =>
        rw [buildRoutes, if_neg hc] at h
        simp only [hgi] at h
        rcases ih acc k r h with h1 | ⟨s, hs, h3⟩
        · exact Or.inl h1
        · exact Or.inr ⟨s, List.mem_cons_of_mem _ hs, h3⟩
      | ok insts =>
        rw [buildRoutes, if_neg hc] at h
        simp only [hgi] at h
        by_cases hb : backendsOf insts = []
        · rw [if_pos hb] at h
          rcases ih acc k r h with h1 | ⟨s, hs, h3⟩
          · exact Or.inl h1
          · exact Or.inr ⟨s, List.mem_cons_of_mem _ hs, h3⟩
        · rw [if_neg hb] at h
          rcases ih _ k r h with h1 | ⟨s, hs, h3⟩
          · rcases mem_setAssoc _ _ _ _ _ h1 with h2 | ⟨rfl, rfl⟩
            · exact Or.inl h2
            · exact Or.inr ⟨name, List.mem_cons_self _ _,
                Bool.eq_false_iff.mpr hc, rfl, insts, hgi, hb, rfl⟩
          · exact Or.inr ⟨s, List.mem_cons_of_mem _ hs, h3⟩

/-- C3 (amended): a refresh whose service listing fails leaves the route map
unchanged; but a refresh in which the listing succeeds rebuilds the map from
scratch and swaps it in, and every entry of the rebuilt map comes from a
non-consul listed service whose instance fetch succeeded with at least one
healthy backend — so a previously known route whose instance fetch failed is
dropped from the map rather than kept. -/
theorem routeTable_refresh_failures (old : List (String × ServiceRoute))
    (e : String) (gi : String → Except String (List ConsulInstance))
    (svcs : List String) :
    refresh old (Except.error e) gi = old ∧
    (∀ k r, (k, r) ∈ refresh old (Except.ok svcs) gi →
      ∃ s, s ∈ svcs ∧ eqFold s "consul" = false ∧ lowerStr s = k ∧
        ∃ insts, gi s = Except.ok insts ∧ backendsOf insts ≠ [] ∧
          r = { ServiceName := s, Backends := backendsOf insts }) := by
  refine ⟨rfl, ?_⟩
  intro k r h
  rcases buildRoutes_mem gi svcs [] k r h with h1 | h1
  · exact absurd h1 (List.not_mem_nil _)
  · exact h1

/-- Witness for the amended C3: a failing listing keeps the single-route
map; with services `["a", "b"]` where fetching `a` fails and `b` has one
healthy instance, the refreshed entry for `b` traces back to `b`. -/
theorem routeTable_refresh_failures_witness :
    refresh [("a", { ServiceName := "a", Backends := [{ ServiceID := "id1", Address := "http://h:1" }] })] (Except.error "down") (fun _ => Except.error "down") = [("a", { ServiceName := "a", Backends := [{ ServiceID := "id1", Address := "http://h:1" }] })] ∧
    (∃ s, s ∈ ["a", "b"] ∧ eqFold s "consul" = false ∧ lowerStr s = "b" ∧
      ∃ insts, (fun n => if n = "b" then Except.ok [({ ServiceID := "id2", Address := "h2", Port := 2, Status := HealthStatus.healthy, Metadata := [] } : ConsulInstance)] else Except.error "down") s = Except.ok insts ∧
        backendsOf insts ≠ [] ∧
        ({ ServiceName := "b", Backends := [{ ServiceID := "id2", Address := "http://h2:2" }] } : ServiceRoute) = { ServiceName := s, Backends := backendsOf insts }) := by
  constructor
  · exact (routeTable_refresh_failures _ "down" (fun _ => Except.error "down") []).1
  · exact (routeTable_refresh_failures
      [("a", { ServiceName := "a", Backends := [{ ServiceID := "id1", Address := "http://h:1" }] })]
      "down"
      (fun n => if n = "b" then Except.ok [({ ServiceID := "id2", Address := "h2", Port := 2, Status := HealthStatus.healthy, Metadata := [] } : ConsulInstance)] else Except.error "down")
      ["a", "b"]).2 "b"
      { ServiceName := "b", Backends := [{ ServiceID := "id2", Address := "http://h2:2" }] }
      (by decide)

/-- C3 as stated fails on the code: with the old map holding a route for
service `a`, a refresh whose listing succeeds with `["a"]` but whose instance
fetch for `a` fails produces the empty map, not the unchanged old map. -/
theorem routeTable_refresh_counterexample :
    refresh [("a", { ServiceName := "a", Backends := [{ ServiceID := "id1", Address := "http://h:1" }] })] (Except.ok ["a"]) (fun _ => Except.error "boom") = [] ∧
    refresh [("a", { ServiceName := "a", Backends := [{ ServiceID := "id1", Address := "http://h:1" }] })] (Except.ok ["a"]) (fun _ => Except.error "boom") ≠ [("a", { ServiceName := "a", Backends := [{ ServiceID := "id1", Address := "http://h:1" }] })] := by
  decide

end Gateway


theorem lookupA_setAssoc_self {α : Type} (l : List (String × α)) (key : String) (v : α) :
    lookupA (setAssoc l key v) key = some v := by
  induction l with
  | nil => simp [setAssoc, lookupA]
  | cons e rest ih =>
    rw [setAssoc]
    split
    · simp [lookupA]
    · next hne =>
      rw [lookupA, if_neg hne]
      exact ih

namespace Gateway

/-- While all calls land at or before the bucket's reset instant, the bucket
keeps its reset instant, its count never exceeds the limit, and the count
grows by exactly the number of allowed calls. -/
theorem countAllowed_inv (key : String) (ts : List Int) :
    ∀ (rl : RateLimiter) (c : Nat) (W' : Int),
    lookupA rl.buckets key = some { count := c, resetAt := W' } →
    c ≤ rl.limit →
    (∀ t ∈ ts, ¬ t > W') →
    ∃ c', lookupA (countAllowed key rl ts).2.buckets key
        = some { count := c', resetAt := W' } ∧
      c' ≤ rl.limit ∧
      (countAllowed key rl ts).2.limit = rl.limit ∧
      (countAllowed key rl ts).1 + c = c' := by
  induction ts with
  | nil =>
    intro rl c W' hb hc _
    refine ⟨c, ?_, hc, ?_, ?_⟩ <;> simp [countAllowed, hb]
  | cons t rest ih =>
    intro rl c W' hb hc hts
    have hnot : ¬ t > W' := hts t (List.mem_cons_self _ _)
    by_cases hge : c ≥ rl.limit
    · have hallow : rl.allow key t = (false, rl) := by
        rw [RateLimiter.allow, hb]
        simp [hnot, hge]
      obtain ⟨c', h1, h2, h3, h4⟩ :=
        ih rl c W' hb hc (fun t ht => hts t (List.mem_cons_of_mem _ ht))
      have hfst : (countAllowed key rl (t :: rest)).1 = (countAllowed key rl rest).1 := by
        simp [countAllowed, hallow]
      have hsnd : (countAllowed key rl (t :: rest)).2 = (countAllowed key rl rest).2 := by
        simp [countAllowed, hallow]
      refine ⟨c', ?_, h2, ?_, ?_⟩
      · rw [hsnd]; exact h1
      · rw [hsnd]; exact h3
      · rw [hfst]; exact h4
    · have hlt : ¬ c ≥ rl.limit := hge
      have hallow : rl.allow key t = (true,
          { rl with buckets := setAssoc rl.buckets key { count := c + 1, resetAt := W' } }) := by
        rw [RateLimiter.allow, hb]
        simp [hnot, hlt]
      obtain ⟨c', h1, h2, h3, h4⟩ :=
        ih { rl with buckets := setAssoc rl.buckets key { count := c + 1, resetAt := W' } }
          (c + 1) W' (lookupA_setAssoc_self _ _ _)
          (show c + 1 ≤ rl.limit by omega)
          (fun t ht => hts t (List.mem_cons_of_mem _ ht))
      have hfst : (countAllowed key rl (t :: rest)).1
          = 1 + (countAllowed key
              { rl with buckets := setAssoc rl.buckets key { count := c + 1, resetAt := W' } }
              rest).1 := by
        simp [countAllowed, hallow]
      have hsnd : (countAllowed key rl (t :: rest)).2
          = (countAllowed key
              { rl with buckets := setAssoc rl.buckets key { count := c + 1, resetAt := W' } }
              rest).2 := by
        simp [countAllowed, hallow]
      refine ⟨c', ?_, h2, ?_, ?_⟩
      · rw [hsnd]; exact h1
      · rw [hsnd]; exact h3
      · rw [hfst]; omega

/-- C4 (amended): for every key, at most `limit` calls (with `limit ≥ 1`)
return true within the window `[t₁, t₁ + window)` opened by a first call that
created the key's current bucket; and a call strictly later than the
bucket's `resetAt` starts a new window with count 1 and is allowed.  (A call
at exactly `resetAt = t₁ + window` still counts against the old bucket.) -/
theorem rateLimiter_fixed_window (rl : RateLimiter) (key : String) :
    (∀ (t₁ : Int) (ts : List Int), 1 ≤ rl.limit →
      (lookupA rl.buckets key = none ∨
        ∃ b, lookupA rl.buckets key = some b ∧ t₁ > b.resetAt) →
      (∀ t ∈ ts, t < t₁ + rl.window) →
      (countAllowed key rl (t₁ :: ts)).1 ≤ rl.limit) ∧
    (∀ (now : Int) (b : Bucket), lookupA rl.buckets key = some b → now > b.resetAt →
      rl.allow key now = (true,
        { rl with buckets := setAssoc rl.buckets key { count := 1, resetAt := now + rl.window } })) := by
  constructor
  · intro t₁ ts hlim hfresh hts
    have hallow : rl.allow key t₁ = (true,
        { rl with buckets := setAssoc rl.buckets key { count := 1, resetAt := t₁ + rl.window } }) := by
      rcases hfresh with hnone | ⟨b, hb, hgt⟩
      · rw [RateLimiter.allow, hnone]
      · rw [RateLimiter.allow, hb]
        simp [hgt]
    obtain ⟨c', h1, h2, h3, h4⟩ :=
      countAllowed_inv key ts
        { rl with buckets := setAssoc rl.buckets key { count := 1, resetAt := t₁ + rl.window } }
        1 (t₁ + rl.window) (lookupA_setAssoc_self _ _ _) hlim
        (fun t ht => by have := hts t ht; omega)
    have hfst : (countAllowed key rl (t₁ :: ts)).1
        = 1 + (countAllowed key
            { rl with buckets := setAssoc rl.buckets key { count := 1, resetAt := t₁ + rl.window } }
            ts).1 := by
      simp [countAllowed, hallow]
    have h2' : c' ≤ rl.limit := h2
    have h4' : (countAllowed key
        { rl with buckets := setAssoc rl.buckets key { count := 1, resetAt := t₁ + rl.window } }
        ts).1 + 1 = c' := h4
    rw [hfst]
    omega
  · intro now b hb hgt
    rw [RateLimiter.allow, hb]
    simp [hgt]

/-- Witness for the amended C4: with limit 2 and a 5-second window, three
calls at times 0, 1, 2 on a fresh key allow at most 2; and after one call at
time 0 on a limit-1 limiter, a call strictly past the reset instant
`5000000000` is allowed with a fresh count-1 bucket. -/
theorem rateLimiter_fixed_window_witness :
    (countAllowed "k" (NewRateLimiter 2 5) [0, 1, 2]).1 ≤ (NewRateLimiter 2 5).limit ∧
    (((NewRateLimiter 1 5).allow "k" 0).2.allow "k" 5000000001
      = (true, { ((NewRateLimiter 1 5).allow "k" 0).2 with
          buckets := setAssoc (((NewRateLimiter 1 5).allow "k" 0).2).buckets "k" { count := 1, resetAt := 5000000001 + (((NewRateLimiter 1 5).allow "k" 0).2).window } })) := by
  constructor
  · exact (rateLimiter_fixed_window (NewRateLimiter 2 5) "k").1 0 [1, 2]
      (by decide) (Or.inl (by decide)) (by decide)
  · exact (rateLimiter_fixed_window ((NewRateLimiter 1 5).allow "k" 0).2 "k").2
      5000000001 { count := 1, resetAt := 5000000000 } (by decide) (by decide)

/-- C4 as stated fails on the code at the window boundary: with limit 1 and
window 5s, a first call at time 0 opens the window `[0, 5000000000)`; the
first call after that window has expired, arriving at exactly
`t₁ + window = 5000000000`, does not start a new window and is rejected,
because the code replaces a bucket only when `now` is strictly after
`resetAt`. -/
theorem rateLimiter_boundary_counterexample :
    ((((NewRateLimiter 1 5).allow "k" 0).2).allow "k" 5000000000).1 = false ∧
    ((((NewRateLimiter 1 5).allow "k" 0).2).allow "k" 5000000000).2
      = (((NewRateLimiter 1 5).allow "k" 0).2) := by
  decide

end Gateway

namespace Gateway

theorem hasPre_append (pfx : List Char) :
    ∀ path : List Char, hasPre pfx path = true →
    pfx ++ path.drop pfx.length = path := by
  induction pfx with
  | nil => intro path _; simp
  | cons p ps ih =>
    intro path h
    cases path with
    | nil => simp [hasPre] at h
    | cons x xs =>
      rw [hasPre] at h
      split at h
      · next heq =>
        subst heq
        simp only [List.cons_append, List.length_cons, List.drop_succ_cons]
        rw [ih xs h]
      · exact absurd h (by simp)

theorem dropWhile_ne_slash_head (l : List Char) :
    ∀ x xs, l.dropWhile (fun c => c != '/') = x :: xs → x = '/' := by
  induction l with
  | nil => intro x xs h; simp [List.dropWhile] at h
  | cons a as ih =>
    intro x xs h
    rw [List.dropWhile_cons] at h
    by_cases hpa : (a != '/') = true
    · rw [if_pos hpa] at h
      exact ih x xs h
    · rw [if_neg hpa] at h
      injection h with h1 h2
      rw [← h1]
      simpa using hpa

/-- C7 (amended): whenever `ParseServiceFromPath` succeeds, the remainder
starts with `'/'`, and either `prefix ++ serviceName ++ remainder` is exactly
the original path (the rest after the prefix contains a slash), or the rest
had no slash, in which case the remainder is the default `"/"` and
`prefix ++ serviceName` is exactly the original path. -/
theorem parseServiceFromPath_reconstruction (pfx path nm rem : List Char)
    (h : parseServiceFromPath pfx path = some (nm, rem)) :
    rem.head? = some '/' ∧
    (pfx ++ nm ++ rem = path ∨ (rem = ['/'] ∧ pfx ++ nm = path)) := by
  by_cases hp : hasPre pfx path = true
  case neg => rw [parseServiceFromPath, if_neg hp] at h; exact absurd h (by simp)
  simp only [parseServiceFromPath, hp, if_true] at h
  by_cases hrest : path.drop pfx.length = []
  · rw [if_pos hrest] at h
    exact absurd h (by simp)
  · rw [if_neg hrest] at h
    by_cases hrem : (path.drop pfx.length).dropWhile (fun c => c != '/') = []
    · rw [if_pos hrem] at h
      have hpair := Option.some.inj h
      have h1 : path.drop pfx.length = nm := congrArg Prod.fst hpair
      have h2 : ['/'] = rem := congrArg Prod.snd hpair
      refine ⟨by rw [← h2]; rfl, Or.inr ⟨h2.symm, ?_⟩⟩
      rw [← h1]
      exact hasPre_append pfx path hp
    · rw [if_neg hrem] at h
      have hpair := Option.some.inj h
      have h1 : (path.drop pfx.length).takeWhile (fun c => c != '/') = nm :=
        congrArg Prod.fst hpair
      have h2 : (path.drop pfx.length).dropWhile (fun c => c != '/') = rem :=
        congrArg Prod.snd hpair
      constructor
      · cases hcons : (path.drop pfx.length).dropWhile (fun c => c != '/') with
        | nil => exact absurd hcons hrem
        | cons y ys =>
          have hy := dropWhile_ne_slash_head _ y ys hcons
          rw [← h2, hcons, hy]
          rfl
      · refine Or.inl ?_
        rw [← h1, ← h2, List.append_assoc, List.takeWhile_append_dropWhile]
        exact hasPre_append pfx path hp

/-- Witness for the amended C7 at prefix `/api/` and path `/api/svc/x`:
the remainder `/x` starts with a slash and reassembles to the path. -/
theorem parseServiceFromPath_reconstruction_witness :
    ("/x".data).head? = some '/' ∧
    ("/api/".data ++ "svc".data ++ "/x".data = "/api/svc/x".data ∨
      ("/x".data = ['/'] ∧ "/api/".data ++ "svc".data = "/api/svc/x".data)) :=
  parseServiceFromPath_reconstruction "/api/".data "/api/svc/x".data
    "svc".data "/x".data (by decide)

/-- C7 as stated fails on the code: with prefix `/api/` and path `/api/foo`
(no trailing segment), the parse succeeds with remainder `"/"`, and
`prefix ++ serviceName ++ remainder = "/api/foo/"` is not the original
path. -/
theorem parseServiceFromPath_counterexample :
    parseServiceFromPath "/api/".data "/api/foo".data
      = some ("foo".data, "/".data) ∧
    "/api/".data ++ "foo".data ++ "/".data ≠ "/api/foo".data := by
  decide

end Gateway

namespace Router

theorem utf8EncodeChar_ascii (c : Char) (h : c.toNat < 128) :
    utf8EncodeChar c = [c.toNat] := by
  simp [utf8EncodeChar, h]

theorem fold_fnv_ascii (l : List Char) :
    ∀ h0 : Nat, (∀ c ∈ l, c.toNat < 128) →
    l.foldl (fun h c => fnv1aStep h c.toNat) h0
      = ((l.map utf8EncodeChar).flatten).foldl fnv1aStep h0 := by
  induction l with
  | nil => intro h0 _; rfl
  | cons c rest ih =>
    intro h0 hall
    have hc := hall c (List.mem_cons_self _ _)
    rw [List.map_cons, List.flatten_cons, utf8EncodeChar_ascii c hc,
      List.singleton_append, List.foldl_cons, List.foldl_cons]
    exact ih (fnv1aStep h0 c.toNat) (fun c hc => hall c (List.mem_cons_of_mem _ hc))

/-- C6 (amended): `fnv1a` is a pure function of its argument (hence
deterministic) and folds the FNV-1a step over the code points of the string;
on ASCII strings — where each code point is its own UTF-8 byte — it equals
the canonical FNV-1a 32-bit hash over the UTF-8 bytes. -/
theorem fnv1a_ascii_utf8 (s : String) (h : ∀ c ∈ s.data, c.toNat < 128) :
    fnv1a s = fnv1aBytesSpec (utf8Encode s) := by
  rw [fnv1a, fnv1aBytesSpec, utf8Encode]
  exact fold_fnv_ascii s.data 2166136261 h

/-- Witness for the amended C6 on the ASCII string `abc`. -/
theorem fnv1a_ascii_utf8_witness :
    (∀ c ∈ "abc".data, c.toNat < 128) ∧
    fnv1a "abc" = fnv1aBytesSpec (utf8Encode "abc") :=
  ⟨by decide, fnv1a_ascii_utf8 "abc" (by decide)⟩

/-- C6 as stated fails on the code for non-ASCII input: the Go loop iterates
code points, so for `é` (U+00E9) it hashes the value 233 in one step, while
the canonical byte-wise FNV-1a hashes the two UTF-8 bytes 195 and 169. -/
theorem fnv1a_not_utf8_counterexample :
    fnv1a "é" ≠ fnv1aBytesSpec (utf8Encode "é") := by
  decide

end Router

namespace Gateway

/-- C9: when the host part of `RemoteAddr` parses as a non-loopback IP
address, `clientIPAddress` is independent of the `X-Forwarded-For` header —
two requests identical except for that header yield the same client IP. -/
theorem clientIP_ignores_xff (remoteAddr xff₁ xff₂ : String) (ip : IP)
    (h1 : parseIP (hostOf remoteAddr) = some ip)
    (h2 : ip.isLoopback = false) :
    clientIPAddress remoteAddr xff₁ = clientIPAddress remoteAddr xff₂ := by
  simp only [clientIPAddress, h1, h2, Bool.false_and, if_neg]
  simp

/-- Witness for C9: peer `10.0.0.5:1234` (non-loopback), once with a spoofed
XFF chain and once without. -/
theorem clientIP_ignores_xff_witness :
    clientIPAddress "10.0.0.5:1234" "1.2.3.4, 5.6.7.8"
      = clientIPAddress "10.0.0.5:1234" "" :=
  clientIP_ignores_xff "10.0.0.5:1234" "1.2.3.4, 5.6.7.8" ""
    (IP.v4 10 0 0 5) (by decide) (by decide)

end Gateway

namespace Router

theorem selectRoundRobin_mem (lb : LoadBalancer) (serviceName : String)
    (l : List Instance) (inst : Instance)
    (h : (selectRoundRobin lb serviceName l).1 = some inst) : inst ∈ l := by
  simp only [selectRoundRobin] at h
  exact List.get?_mem h

theorem expandWeighted_mem (l : List Instance) (inst : Instance)
    (h : inst ∈ expandWeighted l) : inst ∈ l := by
  simp only [expandWeighted, List.mem_flatten, List.mem_map] at h
  obtain ⟨_, ⟨a, ha, rfl⟩, hrep⟩ := h
  rw [List.eq_of_mem_replicate hrep]
  exact ha

theorem selectWeightedRoundRobin_mem (lb : LoadBalancer) (serviceName : String)
    (l : List Instance) (inst : Instance)
    (h : (selectWeightedRoundRobin lb serviceName l).1 = some inst) : inst ∈ l := by
  rw [selectWeightedRoundRobin] at h
  exact expandWeighted_mem l inst (selectRoundRobin_mem _ _ _ _ h)

theorem lcLoop_mem (l : List Instance) :
    ∀ (counts : List (String × Int)) (best : Option Instance) (bestCount : Int)
      (inst : Instance),
    (lcLoop l counts best bestCount).2 = some inst →
    best = some inst ∨ inst ∈ l := by
  induction l with
  | nil =>
    intro counts best bestCount inst h
    exact Or.inl h
  | cons i rest ih =>
    intro counts best bestCount inst h
    rw [lcLoop] at h
    split at h
    · split at h
      · rcases ih _ _ _ _ h with h1 | h1
        · have hi : i = inst := Option.some.inj h1
          exact Or.inr (by rw [← hi]; exact List.mem_cons_self _ _)
        · exact Or.inr (List.mem_cons_of_mem _ h1)
      · rcases ih _ _ _ _ h with h1 | h1
        · exact Or.inl h1
        · exact Or.inr (List.mem_cons_of_mem _ h1)
    · split at h
      · rcases ih _ _ _ _ h with h1 | h1
        · have hi : i = inst := Option.some.inj h1
          exact Or.inr (by rw [← hi]; exact List.mem_cons_self _ _)
        · exact Or.inr (List.mem_cons_of_mem _ h1)
      · rcases ih _ _ _ _ h with h1 | h1
        · exact Or.inl h1
        · exact Or.inr (List.mem_cons_of_mem _ h1)

theorem selectLeastConnections_mem (lb : LoadBalancer) (serviceName : String)
    (l : List Instance) (inst : Instance)
    (h : (selectLeastConnections lb serviceName l).1 = some inst) : inst ∈ l := by
  simp only [selectLeastConnections] at h
  split at h
  · next best heq =>
    simp only at h
    rcases lcLoop_mem l _ _ _ _ heq with h1 | h1
    · exact absurd h1 (by simp)
    · rw [← Option.some.inj h]
      exact h1
  · exact absurd h (by simp)

theorem selectIPHash_mem (l : List Instance) (ctx : Context) (randKey : String)
    (inst : Instance) (h : selectIPHash l ctx randKey = some inst) : inst ∈ l := by
  simp only [selectIPHash] at h
  exact List.get?_mem h

theorem selectRandom_mem (l : List Instance) (randVal : Nat) (inst : Instance)
    (h : selectRandom l randVal = some inst) : inst ∈ l := by
  simp only [selectRandom] at h
  exact List.get?_mem h

theorem executeStrategy_mem (lb : LoadBalancer) (serviceName : String)
    (ctx : Context) (cands : List Instance) (randVal : Nat) (randKey : String)
    (inst : Instance)
    (h : (executeStrategy lb serviceName ctx cands randVal randKey).1 = some inst) :
    inst ∈ cands := by
  rw [executeStrategy] at h
  cases hstrat : resolveStrategy cands <;> rw [hstrat] at h
  · exact selectRoundRobin_mem _ _ _ _ h
  · exact selectLeastConnections_mem _ _ _ _ h
  · exact selectRandom_mem _ _ _ h
  · exact selectWeightedRoundRobin_mem _ _ _ _ h
  · exact selectIPHash_mem _ _ _ _ h

/-- C8: `Select` with a successful provider answer considers exactly the
Healthy instances as candidates, falling back to exactly the non-Unknown
instances when there is no Healthy one: if both sets are empty it returns
nothing (no instance, no error, state untouched), and any instance it
returns belongs to the candidate set so computed. -/
theorem select_candidates (lb : LoadBalancer) (serviceName : String)
    (ctx : Context) (instances : List Instance) (randVal : Nat)
    (randKey : String) :
    (filterHealthy instances = [] → filterNonUnknown instances = [] →
      Select lb serviceName ctx (Except.ok instances) randVal randKey
        = (Except.ok none, lb)) ∧
    (∀ inst lb', Select lb serviceName ctx (Except.ok instances) randVal randKey
        = (Except.ok (some inst), lb') →
      inst ∈ (if (filterHealthy instances).length = 0
              then filterNonUnknown instances else filterHealthy instances)) := by
  constructor
  · intro h1 h2
    simp [Select, h1, h2]
  · intro inst lb' h
    by_cases hfh : (filterHealthy instances).length = 0
    · rw [if_pos hfh]
      by_cases hfnu : (filterNonUnknown instances).length = 0
      · have hSel : Select lb serviceName ctx (Except.ok instances) randVal randKey
            = (Except.ok none, lb) := by
          simp [Select, hfh, hfnu]
        rw [hSel] at h
        exact absurd (congrArg Prod.fst h) (by simp)
      · cases hsel : (executeStrategy lb serviceName ctx
            (filterNonUnknown instances) randVal randKey).1 with
        | none =>
          have hSel : Select lb serviceName ctx (Except.ok instances) randVal randKey
              = (Except.ok none, (executeStrategy lb serviceName ctx
                  (filterNonUnknown instances) randVal randKey).2) := by
            simp [Select, hfh, hfnu, hsel]
          rw [hSel] at h
          exact absurd (congrArg Prod.fst h) (by simp)
        | some i =>
          have hSel : Select lb serviceName ctx (Except.ok instances) randVal randKey
              = (Except.ok (some i), recordRequest (executeStrategy lb serviceName ctx
                  (filterNonUnknown instances) randVal randKey).2 serviceName i) := by
            simp [Select, hfh, hfnu, hsel]
          rw [hSel] at h
          have hi : i = inst := by simpa using congrArg Prod.fst h
          exact hi ▸ executeStrategy_mem _ _ _ _ _ _ _ hsel
    · rw [if_neg hfh]
      cases hsel : (executeStrategy lb serviceName ctx
          (filterHealthy instances) randVal randKey).1 with
      | none =>
        have hSel : Select lb serviceName ctx (Except.ok instances) randVal randKey
            = (Except.ok none, (executeStrategy lb serviceName ctx
                (filterHealthy instances) randVal randKey).2) := by
          simp [Select, hfh, hsel]
        rw [hSel] at h
        exact absurd (congrArg Prod.fst h) (by simp)
      | some i =>
        have hSel : Select lb serviceName ctx (Except.ok instances) randVal randKey
            = (Except.ok (some i), recordRequest (executeStrategy lb serviceName ctx
                (filterHealthy instances) randVal randKey).2 serviceName i) := by
          simp [Select, hfh, hsel]
        rw [hSel] at h
        have hi : i = inst := by simpa using congrArg Prod.fst h
        exact hi ▸ executeStrategy_mem _ _ _ _ _ _ _ hsel

end Router

namespace Router

/-- Witness for C8: with one Unknown instance both filters are empty and
`Select` returns nothing with the state untouched; with one Healthy instance
the returned instance is a member of the computed candidate set. -/
theorem select_candidates_witness :
    Select NewLoadBalancer "svc" { PreferredZone := "", Headers := [], SessionID := "" } (Except.ok [{ ServiceName := "svc", ServiceID := "u", Address := "h", Port := 1, Status := HealthStatus.unknown, Metadata := [], RegisteredAt := 0, LastHealthCheck := 0 }]) 0 "r" = (Except.ok none, NewLoadBalancer) ∧
    ({ ServiceName := "svc", ServiceID := "a", Address := "h", Port := 1, Status := HealthStatus.healthy, Metadata := [], RegisteredAt := 0, LastHealthCheck := 0 } : Instance) ∈ (if (filterHealthy [{ ServiceName := "svc", ServiceID := "a", Address := "h", Port := 1, Status := HealthStatus.healthy, Metadata := [], RegisteredAt := 0, LastHealthCheck := 0 }]).length = 0 then filterNonUnknown [{ ServiceName := "svc", ServiceID := "a", Address := "h", Port := 1, Status := HealthStatus.healthy, Metadata := [], RegisteredAt := 0, LastHealthCheck := 0 }] else filterHealthy [{ ServiceName := "svc", ServiceID := "a", Address := "h", Port := 1, Status := HealthStatus.healthy, Metadata := [], RegisteredAt := 0, LastHealthCheck := 0 }]) := by
  constructor
  · exact (select_candidates NewLoadBalancer "svc" { PreferredZone := "", Headers := [], SessionID := "" } [{ ServiceName := "svc", ServiceID := "u", Address := "h", Port := 1, Status := HealthStatus.unknown, Metadata := [], RegisteredAt := 0, LastHealthCheck := 0 }] 0 "r").1 (by decide) (by decide)
  · exact (select_candidates NewLoadBalancer "svc" { PreferredZone := "", Headers := [], SessionID := "" } [{ ServiceName := "svc", ServiceID := "a", Address := "h", Port := 1, Status := HealthStatus.healthy, Metadata := [], RegisteredAt := 0, LastHealthCheck := 0 }] 0 "r").2 { ServiceName := "svc", ServiceID := "a", Address := "h", Port := 1, Status := HealthStatus.healthy, Metadata := [], RegisteredAt := 0, LastHealthCheck := 0 } { roundRobinIdx := [("svc", 1)], connectionCount := [], stats := [("a", { serviceName := "svc", totalRequests := 1, successfulRequests := 0, failedRequests := 0, totalResponseNanos := 0, instanceCounts := [("a", 1)] })] } (by rfl)

/-- C10: `ReportResult` on a serviceID with no per-instance stats entry
leaves the stats map unchanged (no entry is created), and therefore every
subsequent `Stats` call returns exactly what it returned before. -/
theorem reportResult_frames_stats (lb : LoadBalancer) (serviceID : String)
    (result : RequestResult) (h : lookupA lb.stats serviceID = none) :
    (ReportResult lb serviceID result).stats = lb.stats ∧
    ∀ name, Stats (ReportResult lb serviceID result) name = Stats lb name := by
  have hst : (ReportResult lb serviceID result).stats = lb.stats := by
    simp [ReportResult, h]
  exact ⟨hst, fun name => by simp only [Stats, hst]⟩

/-- Witness for C10: after one recorded selection for instance `a`, a
`ReportResult` for the unknown serviceID `x` changes neither the stats map
nor the aggregate `Stats` answer for the service. -/
theorem reportResult_frames_stats_witness :
    (ReportResult (recordRequest NewLoadBalancer "svc" { ServiceName := "svc", ServiceID := "a", Address := "h", Port := 1, Status := HealthStatus.healthy, Metadata := [], RegisteredAt := 0, LastHealthCheck := 0 }) "x" { ServiceID := "x", Success := true, ResponseTime := 5, StatusCode := 200, ErrorMessage := "" }).stats = (recordRequest NewLoadBalancer "svc" { ServiceName := "svc", ServiceID := "a", Address := "h", Port := 1, Status := HealthStatus.healthy, Metadata := [], RegisteredAt := 0, LastHealthCheck := 0 }).stats ∧
    Stats (ReportResult (recordRequest NewLoadBalancer "svc" { ServiceName := "svc", ServiceID := "a", Address := "h", Port := 1, Status := HealthStatus.healthy, Metadata := [], RegisteredAt := 0, LastHealthCheck := 0 }) "x" { ServiceID := "x", Success := true, ResponseTime := 5, StatusCode := 200, ErrorMessage := "" }) "svc" = Stats (recordRequest NewLoadBalancer "svc" { ServiceName := "svc", ServiceID := "a", Address := "h", Port := 1, Status := HealthStatus.healthy, Metadata := [], RegisteredAt := 0, LastHealthCheck := 0 }) "svc" := by
  constructor
  · exact (reportResult_frames_stats _ "x" _ (by decide)).1
  · exact (reportResult_frames_stats _ "x" _ (by decide)).2 "svc"

end Router
